import Mathlib

/-!
Verification of the bt-tui daemon core (src/bt_daemon.py, src/utils.py).

The file shallowly embeds the daemon's pure core:
  * the inquiry-output parser `parse_inquiry_output`,
  * the pairing-store writer `update_hcsecd_conf` (with file failures
    modelled by an explicit `FSBehavior` failure-injection record and
    Python exceptions modelled by `Except`),
  * the service reloader `restart_hcsecd_service`,
  * the command dispatcher `handle_command`,
  * the per-connection handler `handle_client_connection`.
Text is modelled as `List Char`; Python string operations (`strip`,
`split`, substring `in`, `count`, `startswith`) are embedded directly.
-/

set_option autoImplicit false

abbrev Chars := List Char

/-- Convert a string literal to the `List Char` representation used throughout. -/
def cs (s : String) : Chars := s.toList

/-- The whitespace predicate of Python `str.strip` / `str.split` (ASCII part). -/
def isSpaceChar (c : Char) : Bool :=
  c == ' ' || c == '\t' || c == '\n' || c == '\r' || c == '\x0b' || c == '\x0c'

/-- Python `str.strip()`: drop whitespace from both ends. -/
def pyStrip (l : Chars) : Chars :=
  ((l.dropWhile isSpaceChar).reverse.dropWhile isSpaceChar).reverse

/-- Python `str.split(sep)` for a one-character separator. -/
def splitSep (sep : Char) : Chars → List Chars
  | [] => [[]]
  | c :: rest =>
    if c == sep then [] :: splitSep sep rest
    else
      match splitSep sep rest with
      | [] => [[c]]
      | w :: ws => (c :: w) :: ws

/-- Helper for `pySplitWS`: accumulates the current word (reversed). -/
def wordsAux : List Char → List Char → List Chars
  | [], acc => if acc.isEmpty then [] else [acc.reverse]
  | c :: rest, acc =>
    if isSpaceChar c then
      if acc.isEmpty then wordsAux rest [] else acc.reverse :: wordsAux rest []
    else wordsAux rest (c :: acc)

/-- Python `str.split()` with no argument: split on whitespace runs, dropping empties. -/
def pySplitWS (l : Chars) : List Chars := wordsAux l []

/-- Python substring membership `pat in hay`. -/
def pyIn (pat : Chars) : Chars → Bool
  | [] => pat.isPrefixOf []
  | c :: rest => pat.isPrefixOf (c :: rest) || pyIn pat rest

/-- Number of positions of `s` (end position included) at which `pat` occurs. -/
def countOcc (s pat : Chars) : Nat :=
  match s with
  | [] => if pat.isPrefixOf ([] : Chars) then 1 else 0
  | _ :: rest => (if pat.isPrefixOf s then 1 else 0) + countOcc rest pat

/-- ASCII hexadecimal digit. -/
def isHexDigit (c : Char) : Bool :=
  ('0' ≤ c && c ≤ '9') || ('a' ≤ c && c ≤ 'f') || ('A' ≤ c && c ≤ 'F')

/-- Modelled from the spec and claims: a well-formed hardware address is six
colon-separated two-digit hexadecimal groups (`XX:XX:XX:XX:XX:XX`). -/
def isWellFormedAddress (l : Chars) : Bool :=
  l.length == 17 &&
    (List.range 17).all fun i =>
      if i % 3 == 2 then l.getD i ' ' == ':' else isHexDigit (l.getD i ' ')

/-- A discovered device record (`parse_inquiry_output` dictionary). -/
structure Device where
  mac : Chars
  name : Chars
  rssi : Int
  paired : Bool
  connected : Bool
deriving DecidableEq

/-- Per-line body of the `parse_inquiry_output` loop: skip blank lines and
lines starting with `Inquiry result`; on lines containing `BD_ADDR` or `:`,
take the first whitespace token with exactly five colons (the loop with
`break` is `List.find?`). -/
def lineDevice (line : Chars) : Option Device :=
  if (pyStrip line).isEmpty || (cs "Inquiry result").isPrefixOf line then none
  else if pyIn (cs "BD_ADDR") line || pyIn (cs ":") line then
    match (pySplitWS line).find? (fun p => p.count ':' == 5) with
    | some mac => some ⟨mac, cs "Unknown", -99, false, false⟩
    | none => none
  else none

/-- The loop of `parse_inquiry_output`, appending at most one device per line. -/
def parseLines : List Chars → List Device
  | [] => []
  | l :: ls =>
    match lineDevice l with
    | some d => d :: parseLines ls
    | none => parseLines ls

/-- `stdout_text.strip().split('\n')`. -/
def pyLines (input : Chars) : List Chars := splitSep '\n' (pyStrip input)

/-- `parse_inquiry_output` from src/bt_daemon.py. -/
def parse_inquiry_output (stdout_text : Chars) : List Device :=
  parseLines (pyLines stdout_text)

/-- Acceptance of Python `int(s, 16)` on the hex-digit body (underscores
allowed between digits only), after sign. -/
def hexTail : Chars → Bool
  | [] => true
  | '_' :: c :: rest => isHexDigit c && hexTail rest
  | c :: rest => isHexDigit c && hexTail rest

/-- Nonempty hex-digit body with Python underscore grouping rules. -/
def hexBody : Chars → Bool
  | [] => false
  | c :: rest => isHexDigit c && hexTail rest

/-- Whether Python `int(s, 16)` succeeds: optional surrounding whitespace,
optional sign, then a nonempty hex body. -/
def pyIntHexOk (s : Chars) : Bool :=
  let t := pyStrip s
  match t with
  | '+' :: rest => hexBody rest
  | '-' :: rest => hexBody rest
  | _ => hexBody t

/-- `is_valid_mac` from src/utils.py: split on `:`, require six parts, each of
length 2 and accepted by `int(part, 16)`. -/
def is_valid_mac (mac_address : Chars) : Bool :=
  if mac_address.isEmpty then false
  else
    let parts := splitSep ':' mac_address
    parts.length == 6 &&
      parts.all fun part => part.length == 2 && pyIntHexOk part

/-! ### The pairing store writer (`update_hcsecd_conf`) -/

/-- A Python exception relevant to the daemon's effectful steps. -/
inductive PyErr where
  | ioError
  | decodeError
  | socketError
deriving DecidableEq

/-- The pairing store file: whether it exists, and its text content. -/
structure ConfStore where
  present : Bool
  content : Chars
deriving DecidableEq

/-- Failure injection for the three file operations `update_hcsecd_conf`
performs: creating the missing file, reading it, appending to it.  A `false`
field makes the corresponding operation raise `IOError`. -/
structure FSBehavior where
  createOk : Bool
  readOk : Bool
  appendOk : Bool
deriving DecidableEq

/-- A fully healthy file system. -/
def okFS : FSBehavior := ⟨true, true, true⟩

/-- The header written when the store file does not exist. -/
def headerLine : Chars := cs "# hcsecd.conf generated by bt-tui\n"

/-- The appended device block, the f-string of `update_hcsecd_conf` verbatim. -/
def entryFor (mac pin name : Chars) : Chars :=
  cs "\ndevice \x7b\n\tbdaddr\t" ++
    (mac ++ (cs ";\n\tname\t\"" ++
      (name ++ (cs "\";\n\tkey\tnokey;\n\tpin\t\"" ++
        (pin ++ cs "\";\n\x7d\n")))))

/-- The try-block of `update_hcsecd_conf`: create the file with a header if
missing, read it, refuse a duplicate (Python substring `in`), else append one
block.  Returns the store state reached and either the returned boolean or
the exception raised. -/
def update_hcsecd_conf_run (fsb : FSBehavior) (st : ConfStore)
    (mac pin name : Chars) : ConfStore × Except PyErr Bool :=
  match (if st.present then some st
         else if fsb.createOk then some ⟨true, headerLine⟩ else none) with
  | none => (st, .error .ioError)
  | some s1 =>
    if !fsb.readOk then (s1, .error .ioError)
    else if pyIn mac s1.content then (s1, .ok false)
    else if !fsb.appendOk then (s1, .error .ioError)
    else (⟨true, s1.content ++ entryFor mac pin name⟩, .ok true)

/-- `update_hcsecd_conf` from src/bt_daemon.py: the try-block with its
`except Exception` handler, which converts any raised error into `False`. -/
def update_hcsecd_conf (fsb : FSBehavior) (st : ConfStore)
    (mac pin name : Chars) : ConfStore × Bool :=
  match update_hcsecd_conf_run fsb st mac pin name with
  | (s, .ok b) => (s, b)
  | (s, .error _) => (s, false)

/-- The content `update_hcsecd_conf` reads: the existing content, or the
fresh header when the file had to be created. -/
def effContent (st : ConfStore) : Chars :=
  if st.present then st.content else headerLine

/-! ### The discovery and reload collaborators -/

/-- Outcome of the `subprocess.run(['hccontrol', ...])` call in
`scan_devices`: completion with an exit code and stdout, or one of the
exceptions the function handles. -/
inductive ScanResult where
  | completed (returncode : Int) (stdout : Chars)
  | timedOut
  | notFound
  | raised (msg : Chars)
deriving DecidableEq

/-- Response envelope: `status`, optional `message`, optional `data`. -/
inductive Status where
  | success
  | error
  | warning
deriving DecidableEq

structure Response where
  status : Status
  message : Option Chars
  data : Option (List Device)
deriving DecidableEq

/-- `scan_devices` from src/bt_daemon.py, as a function of the subprocess
outcome.  All its failure handlers return rather than raise. -/
def scan_devices (r : ScanResult) : Response :=
  match r with
  | .completed rc out =>
    if rc ≠ 0 then ⟨.error, some (cs "Failed to scan devices"), some []⟩
    else ⟨.success, none, some (parse_inquiry_output out)⟩
  | .timedOut => ⟨.error, some (cs "Scan timeout"), some []⟩
  | .notFound => ⟨.error, some (cs "hccontrol not found"), some []⟩
  | .raised m => ⟨.error, some m, some []⟩

/-- Outcome of `subprocess.run(['service', 'hcsecd', 'restart'])`. -/
inductive RestartResult where
  | completed (returncode : Int)
  | raised
deriving DecidableEq

/-- `restart_hcsecd_service` from src/bt_daemon.py: true exactly on exit
code 0; every exception is caught and yields false. -/
def restart_hcsecd_service (r : RestartResult) : Bool :=
  match r with
  | .completed rc => rc == 0
  | .raised => false

/-! ### The command dispatcher (`handle_command`) -/

/-- The parsed JSON request object, with the fields the daemon reads. -/
structure Request where
  action : Option Chars
  mac : Option Chars
  pin : Option Chars
deriving DecidableEq

/-- The behaviours of the three external collaborators for one request. -/
structure Env where
  fsb : FSBehavior
  scanR : ScanResult
  restartR : RestartResult
deriving DecidableEq

/-- Result of one dispatch: the response, the store state afterwards, and
which collaborators were invoked. -/
structure DispatchOut where
  resp : Response
  store : ConfStore
  upsertCalled : Bool
  restartCalled : Bool
  scanCalled : Bool
deriving DecidableEq

/-- `handle_command` from src/bt_daemon.py. -/
def handle_command (req : Request) (env : Env) (st : ConfStore) : DispatchOut :=
  let action := req.action.getD []
  if action = cs "scan" then
    ⟨scan_devices env.scanR, st, false, false, true⟩
  else if action = cs "pair" then
    let mac := req.mac.getD []
    let pin := req.pin.getD (cs "0000")
    if mac = [] then
      ⟨⟨.error, some (cs "No MAC address provided"), none⟩, st, false, false, false⟩
    else
      let u := update_hcsecd_conf env.fsb st mac pin (cs "Unknown")
      if u.2 then
        if restart_hcsecd_service env.restartR then
          ⟨⟨.success, some (cs "Paired with " ++ mac), none⟩, u.1, true, true, false⟩
        else
          ⟨⟨.warning, some (cs "Config updated but service restart failed"), none⟩,
            u.1, true, true, false⟩
      else
        ⟨⟨.error, some (cs "Failed to update configuration (or already paired)"), none⟩,
          u.1, true, false, false⟩
  else
    ⟨⟨.error, some (cs "Unknown action: " ++ action), none⟩, st, false, false, false⟩

/-! ### The per-connection handler (`handle_client_connection`) -/

/-- What `recv` + `decode` + `json.loads` produced for one connection:
`recv` raising, zero bytes, undecodable bytes, text that is not JSON
(`json.JSONDecodeError`), or a parsed request object. -/
inductive RecvOutcome where
  | recvRaised
  | noData
  | notUtf8
  | badJson
  | request (r : Request)
deriving DecidableEq

/-- Trace of one connection: the payloads passed to `sendall` (in order),
whether the dispatcher ran, which collaborators ran, and the store state. -/
structure ConnResult where
  sends : List Response
  dispatched : Bool
  upsertCalled : Bool
  restartCalled : Bool
  scanCalled : Bool
  store : ConfStore
deriving DecidableEq

/-- `handle_client_connection` from src/bt_daemon.py.  Its `except Exception`
boundary catches every error (decode failure, a raising `recv` or `sendall`),
so the function always returns `Except.ok`; `sendRaised` injects a `sendall`
failure, which is caught and affects nothing after the attempt. -/
def handle_client_connection (rcv : RecvOutcome) (_sendRaised : Bool)
    (env : Env) (st : ConfStore) : Except PyErr ConnResult :=
  match rcv with
  | .recvRaised => .ok ⟨[], false, false, false, false, st⟩
  | .noData => .ok ⟨[], false, false, false, false, st⟩
  | .notUtf8 => .ok ⟨[], false, false, false, false, st⟩
  | .badJson =>
    .ok ⟨[⟨.error, some (cs "Invalid JSON format"), none⟩], false, false, false, false, st⟩
  | .request r =>
    let d := handle_command r env st
    .ok ⟨[d.resp], true, d.upsertCalled, d.restartCalled, d.scanCalled, d.store⟩

/-! ### Spec-side definitions used to state the claims -/

/-- A line the parser processes: non-blank after stripping and not starting
with the inquiry header phrase. -/
def keptLine (l : Chars) : Bool :=
  !((pyStrip l).isEmpty || (cs "Inquiry result").isPrefixOf l)

/-- The whitespace tokens of a line with exactly five colons. -/
def fiveColonTokens (l : Chars) : List Chars :=
  (pySplitWS l).filter fun p => p.count ':' == 5

/-- Modelled from the spec (§4.1, amended): the address contributed by one
line — on a kept line, the first token with exactly five colon separators. -/
def specLineAddr (l : Chars) : Option Chars :=
  if keptLine l then (fiveColonTokens l).head? else none

/-- Modelled from the spec (§4.3 pair flow, amended): the dispatch outcome
for a pair request with a non-empty address and effective pin `pin`. -/
def pairSpec (env : Env) (st : ConfStore) (mac pin : Chars) : DispatchOut :=
  let u := update_hcsecd_conf env.fsb st mac pin (cs "Unknown")
  if u.2 then
    if restart_hcsecd_service env.restartR then
      ⟨⟨.success, some (cs "Paired with " ++ mac), none⟩, u.1, true, true, false⟩
    else
      ⟨⟨.warning, some (cs "Config updated but service restart failed"), none⟩,
        u.1, true, true, false⟩
  else
    ⟨⟨.error, some (cs "Failed to update configuration (or already paired)"), none⟩,
      u.1, true, false, false⟩

/-- The `bdaddr` line of the block appended for `mac` (without indentation). -/
def bdaddrLine (mac : Chars) : Chars := cs "bdaddr\t" ++ (mac ++ [';'])

/-- Whether the `subprocess.run` outcome of `scan_devices` is one of its
failure modes: non-zero exit, timeout, missing binary, other exception. -/
def scanFailed (r : ScanResult) : Bool :=
  match r with
  | .completed rc _ => !(rc == 0)
  | _ => true

/-- Modelled from the claims: the text `l` contains a well-formed hardware
address as a contiguous substring. -/
def containsWFAddress (l : Chars) : Bool :=
  (List.range (l.length + 1)).any fun i =>
    (List.range (l.length + 1)).any fun j =>
      isWellFormedAddress ((l.drop i).take j)

/-! ### Basic lemmas about the string primitives -/

theorem isPrefixOf_eq_true_iff {p s : Chars} :
    p.isPrefixOf s = true ↔ ∃ t, s = p ++ t := by
  induction p generalizing s with
  | nil => simp [List.isPrefixOf]
  | cons a as ih =>
    cases s with
    | nil => simp [List.isPrefixOf]
    | cons b bs =>
      simp only [List.isPrefixOf, Bool.and_eq_true, beq_iff_eq, ih,
        List.cons_append, List.cons.injEq]
      constructor
      · rintro ⟨rfl, t, rfl⟩; exact ⟨t, rfl, rfl⟩
      · rintro ⟨t, rfl, rfl⟩; exact ⟨rfl, t, rfl⟩

theorem isPrefixOf_nil_iff {p : Chars} :
    p.isPrefixOf ([] : Chars) = true ↔ p = [] := by
  rw [isPrefixOf_eq_true_iff]
  constructor
  · rintro ⟨t, h⟩
    rcases List.append_eq_nil.mp h.symm with ⟨h1, _⟩
    exact h1
  · rintro rfl; exact ⟨[], rfl⟩

theorem isPrefixOf_length_le {p s : Chars} (h : p.isPrefixOf s = true) :
    p.length ≤ s.length := by
  rcases isPrefixOf_eq_true_iff.mp h with ⟨t, rfl⟩
  simp

theorem pyIn_eq_true_iff {pat hay : Chars} :
    pyIn pat hay = true ↔ ∃ u v, hay = u ++ (pat ++ v) := by
  induction hay with
  | nil =>
    simp only [pyIn, isPrefixOf_nil_iff]
    constructor
    · rintro rfl; exact ⟨[], [], rfl⟩
    · rintro ⟨u, v, h⟩
      rcases List.append_eq_nil.mp h.symm with ⟨rfl, h2⟩
      rcases List.append_eq_nil.mp h2 with ⟨rfl, -⟩
      rfl
  | cons c rest ih =>
    simp only [pyIn, Bool.or_eq_true, isPrefixOf_eq_true_iff, ih]
    constructor
    · rintro (⟨t, h⟩ | ⟨u, v, rfl⟩)
      · exact ⟨[], t, by simp [h]⟩
      · exact ⟨c :: u, v, rfl⟩
    · rintro ⟨u, v, h⟩
      cases u with
      | nil => exact Or.inl ⟨v, by simpa using h⟩
      | cons d u' =>
        rw [List.cons_append] at h
        injection h with h1 h2
        exact Or.inr ⟨u', v, h2⟩

theorem pyIn_singleton_iff {c : Char} {l : Chars} :
    pyIn [c] l = true ↔ c ∈ l := by
  rw [pyIn_eq_true_iff]
  constructor
  · rintro ⟨u, v, rfl⟩; simp
  · intro h
    rcases List.append_of_mem h with ⟨u, v, rfl⟩
    exact ⟨u, v, rfl⟩

/-! ### Lemmas about `countOcc` -/

theorem countOcc_nil {pat : Chars} (h : pat ≠ []) : countOcc [] pat = 0 := by
  simp only [countOcc, if_neg (fun hc => h (isPrefixOf_nil_iff.mp hc))]

theorem countOcc_zero_short {s pat : Chars} (h : s.length < pat.length) :
    countOcc s pat = 0 := by
  induction s with
  | nil =>
    apply countOcc_nil
    rintro rfl
    simp at h
  | cons c rest ih =>
    have hrest : rest.length < pat.length := Nat.lt_of_le_of_lt (Nat.le_succ _) h
    have hnp : pat.isPrefixOf (c :: rest) ≠ true := by
      intro hp
      exact absurd (isPrefixOf_length_le hp) (Nat.not_le_of_lt h)
    simp only [countOcc, if_neg hnp, ih hrest]

theorem countOcc_self_cons (p0 : Char) (pr : Chars) :
    countOcc (p0 :: pr) (p0 :: pr) = 1 := by
  have hself : (p0 :: pr).isPrefixOf (p0 :: pr) = true :=
    isPrefixOf_eq_true_iff.mpr ⟨[], by simp⟩
  have hshort : countOcc pr (p0 :: pr) = 0 :=
    countOcc_zero_short (by simp [Nat.lt_succ_self])
  simp [countOcc, hself, hshort]

theorem countOcc_cons_ne {c p0 : Char} (pr : Chars) (h : c ≠ p0) :
    countOcc (c :: p0 :: pr) (p0 :: pr) = 1 := by
  have hnp : (p0 :: pr).isPrefixOf (c :: p0 :: pr) ≠ true := by
    intro hp
    rcases isPrefixOf_eq_true_iff.mp hp with ⟨t, ht⟩
    injection ht with h1 _
    exact h h1
  calc countOcc (c :: p0 :: pr) (p0 :: pr)
      = (if (p0 :: pr).isPrefixOf (c :: p0 :: pr) = true then 1 else 0) +
          countOcc (p0 :: pr) (p0 :: pr) := rfl
    _ = 0 + 1 := by rw [if_neg hnp, countOcc_self_cons]
    _ = 1 := rfl

theorem isPrefixOf_append_sep {pat : Chars} {sep : Char} (hs : sep ∉ pat) :
    ∀ (x y : Chars), pat.isPrefixOf (x ++ sep :: y) = pat.isPrefixOf x := by
  induction pat with
  | nil => intro x y; simp [List.isPrefixOf]
  | cons p ps ih =>
    intro x y
    have hps : sep ∉ ps := fun hm => hs (List.mem_cons_of_mem _ hm)
    have hpne : p ≠ sep := fun he => hs (he ▸ List.mem_cons_self _ _)
    cases x with
    | nil =>
      simp only [List.nil_append, List.isPrefixOf]
      have : (p == sep) = false := beq_false_of_ne hpne
      simp [this]
    | cons b bs =>
      simp only [List.cons_append, List.isPrefixOf, List.append_eq, ih hps]

theorem countOcc_append_sep {pat : Chars} {sep : Char}
    (hne : pat ≠ []) (hs : sep ∉ pat) :
    ∀ (a b : Chars), countOcc (a ++ sep :: b) pat = countOcc a pat + countOcc b pat := by
  intro a b
  induction a with
  | nil =>
    have hnp : pat.isPrefixOf (([] : Chars) ++ sep :: b) = pat.isPrefixOf [] :=
      isPrefixOf_append_sep hs [] b
    have hfalse : pat.isPrefixOf ([] : Chars) ≠ true := fun hc =>
      hne (isPrefixOf_nil_iff.mp hc)
    simp only [List.nil_append] at hnp
    simp only [List.nil_append, countOcc, hnp, if_neg hfalse, countOcc_nil hne,
      Nat.zero_add]
  | cons c a' ih =>
    have hpre : pat.isPrefixOf ((c :: a') ++ sep :: b) = pat.isPrefixOf (c :: a') :=
      isPrefixOf_append_sep hs (c :: a') b
    simp only [List.cons_append] at hpre ⊢
    simp only [countOcc, hpre, ih]
    omega

theorem countOcc_pos_sub {s pat : Chars} (h : countOcc s pat ≠ 0) :
    ∃ u v, s = u ++ (pat ++ v) := by
  induction s with
  | nil =>
    by_cases hp : pat.isPrefixOf ([] : Chars) = true
    · exact ⟨[], [], by simp [isPrefixOf_nil_iff.mp hp]⟩
    · have hne : pat ≠ [] := by
        rintro rfl
        exact hp (by simp [List.isPrefixOf])
      exact absurd (countOcc_nil hne) h
  | cons c rest ih =>
    by_cases hp : pat.isPrefixOf (c :: rest) = true
    · rcases isPrefixOf_eq_true_iff.mp hp with ⟨t, ht⟩
      exact ⟨[], t, by simp [ht]⟩
    · have : countOcc rest pat ≠ 0 := by
        simp only [countOcc, if_neg hp, Nat.zero_add] at h
        exact h
      rcases ih this with ⟨u, v, rfl⟩
      exact ⟨c :: u, v, rfl⟩

theorem countOcc_zero_of_no_sub {s mac A B : Chars} (h : pyIn mac s = false) :
    countOcc s (A ++ (mac ++ B)) = 0 := by
  by_contra hc
  rcases countOcc_pos_sub hc with ⟨u, v, rfl⟩
  have : pyIn mac (u ++ ((A ++ (mac ++ B)) ++ v)) = true := by
    apply pyIn_eq_true_iff.mpr
    exact ⟨u ++ A, B ++ v, by simp [List.append_assoc]⟩
  rw [this] at h
  simp at h

theorem find?_eq_filter_head? (l : List Chars) (p : Chars → Bool) :
    l.find? p = (l.filter p).head? := by
  induction l with
  | nil => rfl
  | cons c rest ih =>
    by_cases h : p c = true
    · rw [List.find?_cons_of_pos _ h, List.filter_cons_of_pos h]; rfl
    · rw [List.find?_cons_of_neg _ (by simpa using h),
        List.filter_cons_of_neg (by simpa using h), ih]

/-! ### Facts about well-formed addresses -/

theorem wf_length {l : Chars} (h : isWellFormedAddress l = true) :
    l.length = 17 := by
  have := (Bool.and_eq_true _ _).mp h
  simpa using this.1

theorem wf_chars {l : Chars} (h : isWellFormedAddress l = true) :
    ∀ c ∈ l, isHexDigit c = true ∨ c = ':' := by
  have hlen := wf_length h
  have hall := (Bool.and_eq_true _ _).mp h |>.2
  rw [List.all_eq_true] at hall
  intro c hc
  rcases List.mem_iff_getElem.mp hc with ⟨i, hi, hget⟩
  have hi17 : i < 17 := hlen ▸ hi
  have := hall i (List.mem_range.mpr hi17)
  by_cases h3 : i % 3 == 2
  · right
    rw [if_pos h3] at this
    have : l.getD i ' ' = ':' := by simpa using this
    rw [List.getD_eq_getElem l ' ' hi, hget] at this
    exact this
  · left
    rw [if_neg h3] at this
    rw [List.getD_eq_getElem l ' ' hi, hget] at this
    exact this

theorem wf_not_mem {l : Chars} (h : isWellFormedAddress l = true)
    {c : Char} (hhex : isHexDigit c = false) (hcolon : c ≠ ':') : c ∉ l := by
  intro hc
  rcases wf_chars h c hc with h1 | h1
  · rw [hhex] at h1; cases h1
  · exact hcolon h1

/-! ### Behaviour of `update_hcsecd_conf` on a healthy file system -/

theorem upsert_fresh (st : ConfStore) (mac pin name : Chars)
    (h0 : pyIn mac (effContent st) = false) :
    update_hcsecd_conf okFS st mac pin name =
      (⟨true, effContent st ++ entryFor mac pin name⟩, true) := by
  obtain ⟨pres, cont⟩ := st
  cases pres
  · have heff : effContent ⟨false, cont⟩ = headerLine := rfl
    rw [heff] at h0 ⊢
    simp [update_hcsecd_conf, update_hcsecd_conf_run, okFS, h0]
  · have heff : effContent ⟨true, cont⟩ = cont := rfl
    rw [heff] at h0 ⊢
    simp [update_hcsecd_conf, update_hcsecd_conf_run, okFS, h0]

theorem upsert_dup (st : ConfStore) (mac pin name : Chars)
    (hp : st.present = true) (h1 : pyIn mac st.content = true) :
    update_hcsecd_conf okFS st mac pin name = (st, false) := by
  simp [update_hcsecd_conf, update_hcsecd_conf_run, okFS, hp, h1]

theorem bdaddrLine_ne (mac : Chars) : bdaddrLine mac ≠ [] := by
  rw [show bdaddrLine mac = 'b' :: (cs "daddr\t" ++ (mac ++ [';'])) from rfl]
  exact List.cons_ne_nil _ _

theorem bdaddrLine_no_nl {mac : Chars} (hwf : isWellFormedAddress mac = true) :
    '\n' ∉ bdaddrLine mac := by
  intro hmem
  simp only [bdaddrLine, List.mem_append] at hmem
  rcases hmem with h | h | h
  · exact absurd h (by decide)
  · exact wf_not_mem hwf (by decide) (by decide) h
  · exact absurd h (by decide)

theorem countOcc_entry (mac pin name : Chars) (hwf : isWellFormedAddress mac = true)
    (hpin : pyIn mac pin = false) (hname : pyIn mac name = false) :
    countOcc (entryFor mac pin name) (bdaddrLine mac) = 1 := by
  have hne : bdaddrLine mac ≠ [] := bdaddrLine_ne mac
  have hnl : '\n' ∉ bdaddrLine mac := bdaddrLine_no_nl hwf
  have hqu : '"' ∉ bdaddrLine mac := by
    intro hmem
    simp only [bdaddrLine, List.mem_append] at hmem
    rcases hmem with h | h | h
    · exact absurd h (by decide)
    · exact wf_not_mem hwf (by decide) (by decide) h
    · exact absurd h (by decide)
  have hplen : (bdaddrLine mac).length = 25 := by
    have h7 : (cs "bdaddr\t").length = 7 := rfl
    simp [bdaddrLine, h7, wf_length hwf]
  have zname : countOcc name (bdaddrLine mac) = 0 := by
    simp only [bdaddrLine]
    exact countOcc_zero_of_no_sub hname
  have zpin : countOcc pin (bdaddrLine mac) = 0 := by
    simp only [bdaddrLine]
    exact countOcc_zero_of_no_sub hpin
  have hone : countOcc ('\t' :: bdaddrLine mac) (bdaddrLine mac) = 1 := by
    rw [show bdaddrLine mac = 'b' :: (cs "daddr\t" ++ (mac ++ [';'])) from rfl]
    exact countOcc_cons_ne _ (by decide)
  have e1 : entryFor mac pin name =
      cs "\ndevice \x7b" ++ '\n' ::
        (cs "\tbdaddr\t" ++ (mac ++ (cs ";\n\tname\t\"" ++ (name ++
          (cs "\";\n\tkey\tnokey;\n\tpin\t\"" ++ (pin ++ cs "\";\n\x7d\n")))))) := rfl
  have e2 : cs "\tbdaddr\t" ++ (mac ++ (cs ";\n\tname\t\"" ++ (name ++
        (cs "\";\n\tkey\tnokey;\n\tpin\t\"" ++ (pin ++ cs "\";\n\x7d\n"))))) =
      ('\t' :: bdaddrLine mac) ++ '\n' :: (cs "\tname\t\"" ++ (name ++
        (cs "\";\n\tkey\tnokey;\n\tpin\t\"" ++ (pin ++ cs "\";\n\x7d\n")))) := by
    calc cs "\tbdaddr\t" ++ (mac ++ (cs ";\n\tname\t\"" ++ (name ++
          (cs "\";\n\tkey\tnokey;\n\tpin\t\"" ++ (pin ++ cs "\";\n\x7d\n")))))
        = '\t' :: (cs "bdaddr\t" ++ (mac ++ (';' :: '\n' :: (cs "\tname\t\"" ++ (name ++
            (cs "\";\n\tkey\tnokey;\n\tpin\t\"" ++ (pin ++ cs "\";\n\x7d\n"))))))) := rfl
      _ = ('\t' :: bdaddrLine mac) ++ '\n' :: (cs "\tname\t\"" ++ (name ++
            (cs "\";\n\tkey\tnokey;\n\tpin\t\"" ++ (pin ++ cs "\";\n\x7d\n")))) := by
          simp [bdaddrLine, List.append_assoc]
  rw [e1, countOcc_append_sep hne hnl, e2, countOcc_append_sep hne hnl, hone]
  have z1 : countOcc (cs "\ndevice \x7b") (bdaddrLine mac) = 0 :=
    countOcc_zero_short (by rw [hplen]; decide)
  rw [z1]
  have hT2 : countOcc (cs "\tname\t\"" ++ (name ++
      (cs "\";\n\tkey\tnokey;\n\tpin\t\"" ++ (pin ++ cs "\";\n\x7d\n"))))
      (bdaddrLine mac) = 0 := by
    rw [show cs "\tname\t\"" ++ (name ++
        (cs "\";\n\tkey\tnokey;\n\tpin\t\"" ++ (pin ++ cs "\";\n\x7d\n"))) =
      cs "\tname\t" ++ '"' :: (name ++
        (cs "\";\n\tkey\tnokey;\n\tpin\t\"" ++ (pin ++ cs "\";\n\x7d\n"))) from rfl]
    rw [countOcc_append_sep hne hqu]
    have za : countOcc (cs "\tname\t") (bdaddrLine mac) = 0 :=
      countOcc_zero_short (by rw [hplen]; decide)
    rw [za]
    rw [show cs "\";\n\tkey\tnokey;\n\tpin\t\"" ++ (pin ++ cs "\";\n\x7d\n") =
      ('"' : Char) :: (cs ";\n\tkey\tnokey;\n\tpin\t\"" ++ (pin ++ cs "\";\n\x7d\n")) from rfl]
    rw [countOcc_append_sep hne hqu, zname]
    rw [show cs ";\n\tkey\tnokey;\n\tpin\t\"" ++ (pin ++ cs "\";\n\x7d\n") =
      [';'] ++ '\n' :: (cs "\tkey\tnokey;\n\tpin\t\"" ++ (pin ++ cs "\";\n\x7d\n")) from rfl]
    rw [countOcc_append_sep hne hnl]
    have zb : countOcc [';'] (bdaddrLine mac) = 0 :=
      countOcc_zero_short (by rw [hplen]; decide)
    rw [zb]
    rw [show cs "\tkey\tnokey;\n\tpin\t\"" ++ (pin ++ cs "\";\n\x7d\n") =
      cs "\tkey\tnokey;" ++ '\n' :: (cs "\tpin\t\"" ++ (pin ++ cs "\";\n\x7d\n")) from rfl]
    rw [countOcc_append_sep hne hnl]
    have zc : countOcc (cs "\tkey\tnokey;") (bdaddrLine mac) = 0 :=
      countOcc_zero_short (by rw [hplen]; decide)
    rw [zc]
    rw [show cs "\tpin\t\"" ++ (pin ++ cs "\";\n\x7d\n") =
      cs "\tpin\t" ++ '"' :: (pin ++ cs "\";\n\x7d\n") from rfl]
    rw [countOcc_append_sep hne hqu]
    have zd : countOcc (cs "\tpin\t") (bdaddrLine mac) = 0 :=
      countOcc_zero_short (by rw [hplen]; decide)
    rw [zd]
    rw [show (cs "\";\n\x7d\n" : Chars) = ('"' : Char) :: cs ";\n\x7d\n" from rfl]
    rw [countOcc_append_sep hne hqu, zpin]
    have ze : countOcc (cs ";\n\x7d\n") (bdaddrLine mac) = 0 :=
      countOcc_zero_short (by rw [hplen]; decide)
    rw [ze]
  rw [hT2]

theorem mac_in_after_append (pre mac pin name : Chars) :
    pyIn mac (pre ++ entryFor mac pin name) = true := by
  apply pyIn_eq_true_iff.mpr
  refine ⟨pre ++ cs "\ndevice \x7b\n\tbdaddr\t",
    cs ";\n\tname\t\"" ++ (name ++ (cs "\";\n\tkey\tnokey;\n\tpin\t\"" ++
      (pin ++ cs "\";\n\x7d\n"))), ?_⟩
  simp [entryFor, List.append_assoc]

theorem countOcc_store (eff mac pin name : Chars)
    (hwf : isWellFormedAddress mac = true) (h0 : pyIn mac eff = false)
    (hpin : pyIn mac pin = false) (hname : pyIn mac name = false) :
    countOcc (eff ++ entryFor mac pin name) (bdaddrLine mac) = 1 := by
  have hne : bdaddrLine mac ≠ [] := bdaddrLine_ne mac
  have hnl : '\n' ∉ bdaddrLine mac := bdaddrLine_no_nl hwf
  have zeff : countOcc eff (bdaddrLine mac) = 0 := by
    simp only [bdaddrLine]
    exact countOcc_zero_of_no_sub h0
  have htail : countOcc (entryFor mac pin name) (bdaddrLine mac) =
      countOcc (cs "device \x7b\n\tbdaddr\t" ++ (mac ++ (cs ";\n\tname\t\"" ++ (name ++
        (cs "\";\n\tkey\tnokey;\n\tpin\t\"" ++ (pin ++ cs "\";\n\x7d\n"))))))
        (bdaddrLine mac) := by
    rw [show entryFor mac pin name = ([] : Chars) ++ '\n' ::
        (cs "device \x7b\n\tbdaddr\t" ++ (mac ++ (cs ";\n\tname\t\"" ++ (name ++
          (cs "\";\n\tkey\tnokey;\n\tpin\t\"" ++ (pin ++ cs "\";\n\x7d\n")))))) from rfl]
    rw [countOcc_append_sep hne hnl, countOcc_nil hne, Nat.zero_add]
  rw [show eff ++ entryFor mac pin name = eff ++ '\n' ::
      (cs "device \x7b\n\tbdaddr\t" ++ (mac ++ (cs ";\n\tname\t\"" ++ (name ++
        (cs "\";\n\tkey\tnokey;\n\tpin\t\"" ++ (pin ++ cs "\";\n\x7d\n")))))) from rfl]
  rw [countOcc_append_sep hne hnl, zeff, Nat.zero_add, ← htail]
  exact countOcc_entry mac pin name hwf hpin hname

/-! ### Characterization of the parser loop -/

theorem wordsAux_chars :
    ∀ (l acc t : Chars), t ∈ wordsAux l acc → ∀ c ∈ t, c ∈ l ∨ c ∈ acc := by
  intro l
  induction l with
  | nil =>
    intro acc t ht c hc
    by_cases hacc : acc.isEmpty
    · simp [wordsAux, hacc] at ht
    · simp only [wordsAux, if_neg hacc, List.mem_singleton] at ht
      subst ht
      exact Or.inr (List.mem_reverse.mp hc)
  | cons d rest ih =>
    intro acc t ht c hc
    by_cases hsp : isSpaceChar d = true
    · by_cases hacc : acc.isEmpty
      · simp only [wordsAux, if_pos hsp, if_pos hacc] at ht
        rcases ih [] t ht c hc with h | h
        · exact Or.inl (List.mem_cons_of_mem _ h)
        · cases h
      · simp only [wordsAux, if_pos hsp, if_neg hacc, List.mem_cons] at ht
        rcases ht with rfl | ht
        · exact Or.inr (List.mem_reverse.mp hc)
        · rcases ih [] t ht c hc with h | h
          · exact Or.inl (List.mem_cons_of_mem _ h)
          · cases h
    · simp only [wordsAux, if_neg hsp] at ht
      rcases ih (d :: acc) t ht c hc with h | h
      · exact Or.inl (List.mem_cons_of_mem _ h)
      · rcases List.mem_cons.mp h with rfl | h2
        · exact Or.inl (List.mem_cons_self _ _)
        · exact Or.inr h2

theorem lineDevice_fields {l : Chars} {d : Device} (h : lineDevice l = some d) :
    d.name = cs "Unknown" ∧ d.rssi = -99 ∧ d.paired = false ∧ d.connected = false := by
  unfold lineDevice at h
  split at h
  · cases h
  · split at h
    · cases hfind : (pySplitWS l).find? (fun p => p.count ':' == 5) with
      | some m =>
        rw [hfind] at h
        cases h
        exact ⟨rfl, rfl, rfl, rfl⟩
      | none => rw [hfind] at h; cases h
    · cases h

theorem lineDevice_mac (l : Chars) :
    (lineDevice l).map Device.mac = specLineAddr l := by
  by_cases h1 : ((pyStrip l).isEmpty || (cs "Inquiry result").isPrefixOf l) = true
  · have hk : keptLine l = false := by simp [keptLine, h1]
    simp [lineDevice, h1, specLineAddr, hk]
  · have hk : keptLine l = true := by
      simp only [keptLine, Bool.not_eq_true']
      exact Bool.not_eq_true _ ▸ (Bool.of_not_eq_true h1)
    by_cases h2 : (pyIn (cs "BD_ADDR") l || pyIn (cs ":") l) = true
    · rw [show lineDevice l = (match (pySplitWS l).find? (fun p => p.count ':' == 5) with
          | some mac => some ⟨mac, cs "Unknown", -99, false, false⟩
          | none => none) from by simp [lineDevice, h1, h2]]
      rw [specLineAddr, if_pos hk, fiveColonTokens, ← find?_eq_filter_head?]
      cases hfind : (pySplitWS l).find? (fun p => p.count ':' == 5) <;> simp [hfind]
    · have hcolon : pyIn (cs ":") l = false := by
        rcases Bool.or_eq_false_iff.mp (Bool.of_not_eq_true h2) with ⟨-, hb⟩
        exact hb
      have hnocolon : ':' ∉ l := by
        intro hm
        have : pyIn [':'] l = true := pyIn_singleton_iff.mpr hm
        rw [show ([':'] : Chars) = cs ":" from rfl, hcolon] at this
        cases this
      have hfil : (pySplitWS l).filter (fun p => p.count ':' == 5) = [] := by
        apply List.filter_eq_nil_iff.mpr
        intro t ht hp
        have hcount : t.count ':' = 5 := by simpa using hp
        have hmem : ':' ∈ t := List.count_pos_iff.mp (by rw [hcount]; decide)
        rcases wordsAux_chars l [] t ht ':' hmem with h | h
        · exact hnocolon h
        · cases h
      simp [lineDevice, h1, h2, specLineAddr, hk, fiveColonTokens, hfil]

theorem parseLines_map (ls : List Chars) :
    (parseLines ls).map Device.mac = ls.filterMap specLineAddr := by
  induction ls with
  | nil => rfl
  | cons l rest ih =>
    rw [List.filterMap_cons, ← lineDevice_mac l]
    cases hd : lineDevice l with
    | none => simp only [parseLines, hd, Option.map_none', ih]
    | some d => simp only [parseLines, hd, Option.map_some', List.map_cons, ih]

theorem parseLines_fields (ls : List Chars) :
    ∀ d ∈ parseLines ls,
      d.name = cs "Unknown" ∧ d.rssi = -99 ∧ d.paired = false ∧ d.connected = false := by
  induction ls with
  | nil => intro d hd; cases hd
  | cons l rest ih =>
    intro d hd
    cases hld : lineDevice l with
    | none =>
      rw [parseLines, hld] at hd
      exact ih d hd
    | some d0 =>
      rw [parseLines, hld] at hd
      rcases List.mem_cons.mp hd with rfl | hd2
      · exact lineDevice_fields hld
      · exact ih d hd2

/-! ## The claims -/

/-! ### C2 -/

/-- Claim C2 as stated is false: the parser's criterion is "token with exactly
five colons", not well-formedness.  The input `a:b:c:d:e:f` contains no
well-formed hardware address as a substring, yet `parse_inquiry_output`
returns a non-empty device list. -/
theorem c2_counterexample :
    containsWFAddress (cs "a:b:c:d:e:f") = false ∧
      parse_inquiry_output (cs "a:b:c:d:e:f") ≠ [] := by
  constructor
  · decide
  · decide

/-- Claim C2 (corrected): for every text input in which no whitespace token of
any line has exactly five colons, `parse_inquiry_output` returns the empty
list (and, being a total function, it never raises). -/
theorem c2_theorem (input : Chars)
    (h : ((pyLines input).all fun l => (fiveColonTokens l).isEmpty) = true) :
    parse_inquiry_output input = [] := by
  have hmap := parseLines_map (pyLines input)
  have hnil : (pyLines input).filterMap specLineAddr = [] := by
    apply List.filterMap_eq_nil_iff.mpr
    intro l hl
    rw [specLineAddr]
    split
    · have hemp : (fiveColonTokens l).isEmpty = true := List.all_eq_true.mp h l hl
      rw [List.isEmpty_iff.mp hemp]
      rfl
    · rfl
  rw [hnil] at hmap
  exact List.map_eq_nil_iff.mp hmap

/-- Witness for C2 at a concrete garbage input. -/
theorem c2_witness :
    ((pyLines (cs "Inquiry result, num_responses=0\nno devices found here")).all
        fun l => (fiveColonTokens l).isEmpty) = true ∧
      parse_inquiry_output (cs "Inquiry result, num_responses=0\nno devices found here") = [] := by
  refine ⟨by decide, c2_theorem _ (by decide)⟩

/-! ### C6 -/

/-- Claim C6 as stated is false: a line whose only five-colon token is not a
well-formed address still yields a record.  The input below has exactly one
well-formed address token, on one non-header line, yet the parser returns two
records. -/
theorem c6_counterexample :
    ((pyLines (cs "00:11:22:33:44:55\na:b:c:d:e:f")).map
        fun l => ((pySplitWS l).filter isWellFormedAddress).length) = [1, 0] ∧
      ((pyLines (cs "00:11:22:33:44:55\na:b:c:d:e:f")).all
        fun l => !((cs "Inquiry result").isPrefixOf l)) = true ∧
      (parse_inquiry_output (cs "00:11:22:33:44:55\na:b:c:d:e:f")).length = 2 := by
  refine ⟨by decide, by decide, by decide⟩

/-- Claim C6 (corrected): the parser returns one record per kept line (neither
blank nor starting with the inquiry header) that has a whitespace token with
exactly five colons; each record's address is the first such token of its
line, verbatim, in input line order, and all other fields are defaults. -/
theorem c6_theorem (input : Chars) :
    (parse_inquiry_output input).map Device.mac = (pyLines input).filterMap specLineAddr ∧
      ∀ d ∈ parse_inquiry_output input,
        d.name = cs "Unknown" ∧ d.rssi = -99 ∧ d.paired = false ∧ d.connected = false :=
  ⟨parseLines_map (pyLines input), parseLines_fields (pyLines input)⟩

/-- Witness for C6 at a concrete input with a header line and a two-token
line whose first five-colon token wins. -/
theorem c6_witness :
    (parse_inquiry_output (cs "Inquiry result\n00:11:22:33:44:55 66:77:88:99:AA:BB")).map
        Device.mac =
      (pyLines (cs "Inquiry result\n00:11:22:33:44:55 66:77:88:99:AA:BB")).filterMap
        specLineAddr ∧
      ∀ d ∈ parse_inquiry_output (cs "Inquiry result\n00:11:22:33:44:55 66:77:88:99:AA:BB"),
        d.name = cs "Unknown" ∧ d.rssi = -99 ∧ d.paired = false ∧ d.connected = false :=
  c6_theorem _

/-! ### C5 -/

/-- Claim C5 as stated is false: it quantifies over every store file, but when
the store already contains the address the first call returns `false`, not
`true`. -/
theorem c5_counterexample :
    update_hcsecd_conf okFS ⟨true, cs "00:11:22:33:44:55"⟩
        (cs "00:11:22:33:44:55") (cs "0000") (cs "Unknown") =
      (⟨true, cs "00:11:22:33:44:55"⟩, false) := by
  decide

/-- Claim C5 (corrected): for a well-formed address that does not already
occur in the store content (nor inside the pin or name arguments) and a
healthy file system, two successive `upsertPairing` calls return `true` then
`false`, and the final store contains exactly one `bdaddr` line for the
address. -/
theorem c5_theorem (st : ConfStore) (mac pin name : Chars)
    (hwf : isWellFormedAddress mac = true)
    (h0 : pyIn mac (effContent st) = false)
    (hpin : pyIn mac pin = false) (hname : pyIn mac name = false) :
    (update_hcsecd_conf okFS st mac pin name).2 = true ∧
      (update_hcsecd_conf okFS (update_hcsecd_conf okFS st mac pin name).1
        mac pin name).2 = false ∧
      countOcc (update_hcsecd_conf okFS (update_hcsecd_conf okFS st mac pin name).1
        mac pin name).1.content (bdaddrLine mac) = 1 := by
  have h1 := upsert_fresh st mac pin name h0
  have hin : pyIn mac (effContent st ++ entryFor mac pin name) = true :=
    mac_in_after_append (effContent st) mac pin name
  have h2 := upsert_dup ⟨true, effContent st ++ entryFor mac pin name⟩ mac pin name rfl hin
  refine ⟨by rw [h1], ?_, ?_⟩
  · rw [h1]
    exact congrArg Prod.snd h2
  · rw [h1]
    rw [show ((⟨true, effContent st ++ entryFor mac pin name⟩ : ConfStore), true).1 =
      (⟨true, effContent st ++ entryFor mac pin name⟩ : ConfStore) from rfl]
    rw [h2]
    exact countOcc_store (effContent st) mac pin name hwf h0 hpin hname

/-- Witness for C5 at a concrete fresh store. -/
theorem c5_witness :
    (update_hcsecd_conf okFS ⟨true, []⟩ (cs "AA:BB:CC:DD:EE:FF") (cs "1234")
        (cs "Unknown")).2 = true ∧
      (update_hcsecd_conf okFS (update_hcsecd_conf okFS ⟨true, []⟩
          (cs "AA:BB:CC:DD:EE:FF") (cs "1234") (cs "Unknown")).1
        (cs "AA:BB:CC:DD:EE:FF") (cs "1234") (cs "Unknown")).2 = false ∧
      countOcc (update_hcsecd_conf okFS (update_hcsecd_conf okFS ⟨true, []⟩
          (cs "AA:BB:CC:DD:EE:FF") (cs "1234") (cs "Unknown")).1
        (cs "AA:BB:CC:DD:EE:FF") (cs "1234") (cs "Unknown")).1.content
        (bdaddrLine (cs "AA:BB:CC:DD:EE:FF")) = 1 :=
  c5_theorem ⟨true, []⟩ (cs "AA:BB:CC:DD:EE:FF") (cs "1234") (cs "Unknown")
    (by decide) (by decide) (by decide) (by decide)

/-! ### C3 -/

/-- Claim C3 as stated is false: on an unrecoverable file failure (here the
read step raising `IOError`) `update_hcsecd_conf` does not let the exception
escape; its `except Exception` handler turns it into the boolean `false`. -/
theorem c3_counterexample :
    update_hcsecd_conf_run ⟨true, false, true⟩ ⟨true, []⟩
        (cs "AA:BB:CC:DD:EE:FF") (cs "0000") (cs "Unknown") =
      (⟨true, []⟩, Except.error PyErr.ioError) ∧
      update_hcsecd_conf ⟨true, false, true⟩ ⟨true, []⟩
        (cs "AA:BB:CC:DD:EE:FF") (cs "0000") (cs "Unknown") =
      (⟨true, []⟩, false) :=
  ⟨rfl, rfl⟩

/-- Claim C3 (corrected): whenever the try-block of `update_hcsecd_conf`
raises (any file-system failure), the function returns the boolean `false`
at the same store state; no `IOError` ever escapes to the caller. -/
theorem c3_theorem (fsb : FSBehavior) (st : ConfStore) (mac pin name : Chars)
    (s : ConfStore) (e : PyErr)
    (h : update_hcsecd_conf_run fsb st mac pin name = (s, .error e)) :
    update_hcsecd_conf fsb st mac pin name = (s, false) := by
  simp only [update_hcsecd_conf, h]

/-- Witness for C3 at a concrete failing file system (creation fails). -/
theorem c3_witness :
    update_hcsecd_conf ⟨false, true, true⟩ ⟨false, []⟩
        (cs "AA:BB:CC:DD:EE:FF") (cs "0000") (cs "Unknown") =
      (⟨false, []⟩, false) :=
  c3_theorem ⟨false, true, true⟩ ⟨false, []⟩ _ _ _ ⟨false, []⟩ PyErr.ioError rfl

/-! ### C1 -/

/-- Shared routing lemma: a pair request with a non-empty address is handled
exactly as the (amended) spec's pair flow describes, with the pin defaulted
to "0000" when absent. -/
theorem handle_pair_eq (env : Env) (st : ConfStore) (m : Chars)
    (pinOpt : Option Chars) (hm : m ≠ []) :
    handle_command ⟨some (cs "pair"), some m, pinOpt⟩ env st =
      pairSpec env st m (pinOpt.getD (cs "0000")) := by
  have hps : ¬ (cs "pair" = cs "scan") := by decide
  simp [handle_command, pairSpec, hps, hm]

/-- Claim C1 as stated is false in its quoted message: on `upsertPairing`
returning false (here: duplicate address) the message is
"Failed to update configuration (or already paired)" — capital F — not
"failed to update configuration (or already paired)". -/
theorem c1_counterexample :
    (handle_command ⟨some (cs "pair"), some (cs "AA:BB:CC:DD:EE:FF"), none⟩
        ⟨okFS, ScanResult.timedOut, RestartResult.completed 0⟩
        ⟨true, cs "AA:BB:CC:DD:EE:FF"⟩).resp =
      ⟨Status.error, some (cs "Failed to update configuration (or already paired)"), none⟩ ∧
      cs "Failed to update configuration (or already paired)" ≠
        cs "failed to update configuration (or already paired)" := by
  refine ⟨by decide, by decide⟩

/-- Claim C1 (corrected): for every pair request with a non-empty address the
dispatcher behaves exactly as `pairSpec`: pin defaults to "0000" when absent,
`upsertPairing` is called, `true` + successful reload gives `success`,
`true` + failed reload gives `warning`, and `false` gives `error` with
message "Failed to update configuration (or already paired)" (the same for a
duplicate and for an I/O failure, both of which make `upsertPairing` return
false). -/
theorem c1_theorem (env : Env) (st : ConfStore) (m : Chars)
    (pinOpt : Option Chars) (hm : m ≠ []) :
    handle_command ⟨some (cs "pair"), some m, pinOpt⟩ env st =
      pairSpec env st m (pinOpt.getD (cs "0000")) :=
  handle_pair_eq env st m pinOpt hm

/-- Witness for C1 at a concrete request with the pin field absent. -/
theorem c1_witness :
    handle_command ⟨some (cs "pair"), some (cs "AA:BB:CC:DD:EE:FF"), none⟩
        ⟨okFS, ScanResult.timedOut, RestartResult.completed 0⟩ ⟨true, []⟩ =
      pairSpec ⟨okFS, ScanResult.timedOut, RestartResult.completed 0⟩ ⟨true, []⟩
        (cs "AA:BB:CC:DD:EE:FF") (cs "0000") :=
  c1_theorem ⟨okFS, ScanResult.timedOut, RestartResult.completed 0⟩ ⟨true, []⟩
    (cs "AA:BB:CC:DD:EE:FF") none (by decide)

/-! ### C7 -/

/-- Claim C7 as stated is false in its quoted message: the missing-address
error message is "No MAC address provided", not "no address provided". -/
theorem c7_counterexample :
    (handle_command ⟨some (cs "pair"), none, none⟩
        ⟨okFS, ScanResult.timedOut, RestartResult.completed 0⟩ ⟨true, []⟩).resp.message =
      some (cs "No MAC address provided") ∧
      cs "No MAC address provided" ≠ cs "no address provided" := by
  refine ⟨by decide, by decide⟩

/-- Claim C7 (corrected): a pair request whose address field is missing or
empty yields `error` with message "No MAC address provided", the store is
unchanged, and neither `upsertPairing` nor the reload (nor discovery) runs. -/
theorem c7_theorem (env : Env) (st : ConfStore) (pinOpt macOpt : Option Chars)
    (h : macOpt = none ∨ macOpt = some []) :
    handle_command ⟨some (cs "pair"), macOpt, pinOpt⟩ env st =
      ⟨⟨Status.error, some (cs "No MAC address provided"), none⟩, st, false, false, false⟩ := by
  have hm : macOpt.getD [] = [] := by rcases h with rfl | rfl <;> rfl
  have hps : ¬ (cs "pair" = cs "scan") := by decide
  simp [handle_command, hps, hm]

/-- Witness for C7 at a request with no mac field. -/
theorem c7_witness :
    handle_command ⟨some (cs "pair"), none, none⟩
        ⟨okFS, ScanResult.timedOut, RestartResult.completed 0⟩ ⟨true, []⟩ =
      ⟨⟨Status.error, some (cs "No MAC address provided"), none⟩, ⟨true, []⟩,
        false, false, false⟩ :=
  c7_theorem ⟨okFS, ScanResult.timedOut, RestartResult.completed 0⟩ ⟨true, []⟩
    none none (Or.inl rfl)

/-! ### C10 -/

/-- Claim C10 (confirmed): for every non-empty mac string — with no format
validation anywhere on the dispatch path — `upsertPairing` is called with
that string, the dispatch store is exactly its result, and on a fresh healthy
store the string is interpolated verbatim into the appended block. -/
theorem c10_theorem (env : Env) (st : ConfStore) (m : Chars)
    (pinOpt : Option Chars) (hm : m ≠ []) :
    (handle_command ⟨some (cs "pair"), some m, pinOpt⟩ env st).upsertCalled = true ∧
      (handle_command ⟨some (cs "pair"), some m, pinOpt⟩ env st).store =
        (update_hcsecd_conf env.fsb st m (pinOpt.getD (cs "0000")) (cs "Unknown")).1 ∧
      (env.fsb = okFS → pyIn m (effContent st) = false →
        ∃ A B, (handle_command ⟨some (cs "pair"), some m, pinOpt⟩ env st).store.content =
          A ++ (m ++ B)) := by
  rw [handle_pair_eq env st m pinOpt hm]
  refine ⟨?_, ?_, ?_⟩
  · simp only [pairSpec]
    split
    · split <;> rfl
    · rfl
  · simp only [pairSpec]
    split
    · split <;> rfl
    · rfl
  · intro hfsb h0
    rcases pyIn_eq_true_iff.mp
        (mac_in_after_append (effContent st) m (pinOpt.getD (cs "0000")) (cs "Unknown"))
      with ⟨A, B, hAB⟩
    refine ⟨A, B, ?_⟩
    simp only [pairSpec]
    rw [hfsb, upsert_fresh st m (pinOpt.getD (cs "0000")) (cs "Unknown") h0]
    by_cases hr : restart_hcsecd_service env.restartR = true
    · simp [hr, hAB]
    · simp [hr, hAB]

/-- Witness for C10: the string "garbage!" is rejected by the existing
validator `is_valid_mac` and is not a well-formed address, yet dispatch calls
the config writer with it and appends it verbatim. -/
theorem c10_witness :
    is_valid_mac (cs "garbage!") = false ∧
      isWellFormedAddress (cs "garbage!") = false ∧
      ((handle_command ⟨some (cs "pair"), some (cs "garbage!"), none⟩
          ⟨okFS, ScanResult.timedOut, RestartResult.completed 0⟩ ⟨true, []⟩).upsertCalled = true ∧
        (handle_command ⟨some (cs "pair"), some (cs "garbage!"), none⟩
            ⟨okFS, ScanResult.timedOut, RestartResult.completed 0⟩ ⟨true, []⟩).store =
          (update_hcsecd_conf okFS ⟨true, []⟩ (cs "garbage!")
            ((none : Option Chars).getD (cs "0000")) (cs "Unknown")).1 ∧
        (okFS = okFS → pyIn (cs "garbage!") (effContent ⟨true, []⟩) = false →
          ∃ A B, (handle_command ⟨some (cs "pair"), some (cs "garbage!"), none⟩
              ⟨okFS, ScanResult.timedOut, RestartResult.completed 0⟩
              ⟨true, []⟩).store.content = A ++ (cs "garbage!" ++ B))) :=
  ⟨by decide, by decide,
    c10_theorem ⟨okFS, ScanResult.timedOut, RestartResult.completed 0⟩ ⟨true, []⟩
      (cs "garbage!") none (by decide)⟩

/-! ### C8 -/

/-- Claim C8 (confirmed): every failure mode of the discovery call — non-zero
exit, timeout, missing binary, any other exception — yields `error` with
`data` the empty sequence; `scan_devices` is total, so no failure escapes. -/
theorem c8_theorem (r : ScanResult) (h : scanFailed r = true) :
    (scan_devices r).status = Status.error ∧ (scan_devices r).data = some [] := by
  cases r with
  | completed rc out =>
    have hrc : ¬ rc = 0 := by simpa [scanFailed] using h
    constructor <;> simp [scan_devices, hrc]
  | timedOut => exact ⟨rfl, rfl⟩
  | notFound => exact ⟨rfl, rfl⟩
  | raised m => exact ⟨rfl, rfl⟩

/-- Witness for C8 at the timeout failure mode. -/
theorem c8_witness :
    scanFailed ScanResult.timedOut = true ∧
      (scan_devices ScanResult.timedOut).status = Status.error ∧
      (scan_devices ScanResult.timedOut).data = some [] :=
  ⟨by decide, c8_theorem ScanResult.timedOut (by decide)⟩

/-! ### C9 -/

/-- Claim C9 (confirmed): for every read outcome and every collaborator
behaviour the per-connection handler returns normally (`Except.ok`), and a
zero-byte read yields no send, no dispatch and an unchanged store. -/
theorem c9_theorem (rcv : RecvOutcome) (sr : Bool) (env : Env) (st : ConfStore) :
    (∃ r, handle_client_connection rcv sr env st = Except.ok r) ∧
      handle_client_connection RecvOutcome.noData sr env st =
        Except.ok ⟨[], false, false, false, false, st⟩ := by
  refine ⟨?_, rfl⟩
  cases rcv with
  | recvRaised => exact ⟨_, rfl⟩
  | noData => exact ⟨_, rfl⟩
  | notUtf8 => exact ⟨_, rfl⟩
  | badJson => exact ⟨_, rfl⟩
  | request r => exact ⟨_, rfl⟩

/-- Witness for C9 at a concrete connection. -/
theorem c9_witness :
    (∃ r, handle_client_connection RecvOutcome.noData false
        ⟨okFS, ScanResult.timedOut, RestartResult.completed 0⟩ ⟨true, []⟩ = Except.ok r) ∧
      handle_client_connection RecvOutcome.noData false
          ⟨okFS, ScanResult.timedOut, RestartResult.completed 0⟩ ⟨true, []⟩ =
        Except.ok ⟨[], false, false, false, false, ⟨true, []⟩⟩ :=
  c9_theorem RecvOutcome.noData false
    ⟨okFS, ScanResult.timedOut, RestartResult.completed 0⟩ ⟨true, []⟩

/-! ### C4 -/

/-- Claim C4 as stated is false in its quoted message: the single error
response sent on a JSON decode failure carries "Invalid JSON format", not
"invalid format". -/
theorem c4_counterexample :
    (handle_client_connection RecvOutcome.badJson false
        ⟨okFS, ScanResult.timedOut, RestartResult.completed 0⟩ ⟨true, []⟩ =
      Except.ok ⟨[⟨Status.error, some (cs "Invalid JSON format"), none⟩],
        false, false, false, false, ⟨true, []⟩⟩) ∧
      cs "Invalid JSON format" ≠ cs "invalid format" :=
  ⟨rfl, by decide⟩

/-- Claim C4 (corrected): on text that fails JSON parsing the handler sends
exactly one response — `error` with message "Invalid JSON format" — the
dispatcher is never invoked, no collaborator runs, and the store is
unchanged; the connection is then closed. -/
theorem c4_theorem (sr : Bool) (env : Env) (st : ConfStore) :
    handle_client_connection RecvOutcome.badJson sr env st =
      Except.ok ⟨[⟨Status.error, some (cs "Invalid JSON format"), none⟩],
        false, false, false, false, st⟩ :=
  rfl
